import Mathlib

/-!
Verification of the VacationPlaner day-classification and statistics engine.

This file is a shallow embedding of the Python sources
`src/vacationplaner/calendar_manager.py` and
`src/vacationplaner/config_manager.py`:

* `PyDate`, `toordinal`, `weekday`, `nextDate`, `daysList` model Python's
  `datetime.date` values, ordinals, `date.weekday()`, `date + timedelta(days=1)`
  and the day-by-day `while current <= end` loops of the source.
* `parseDate` models `datetime.strptime(s, "%Y-%m-%d").date()` as CPython's
  `_strptime` implements it: the compiled regex
  `\d\d\d\d\-(1[0-2]|0[1-9]|[1-9])\-(3[01]|[12]\d|0[1-9]|[1-9])`, matched from
  the start of the string, with an error if unconverted data remains, then the
  `int()` conversion of the matched groups, then the `date(y, m, d)`
  constructor's range checks.  The regex is compiled without `re.ASCII`, so
  the `\d` occurrences (the year, and the units digit of the `[12]\d` day
  alternative) accept any Unicode decimal digit, which `int()` converts by
  digit value; this is modelled by `isNd`/`ndVal` over the Unicode `Nd`
  ranges.
* `validate_vacation_config` / `validate_holiday_config` model
  `ConfigManager._validate_vacation_config` / `_validate_holiday_config`,
  including the fact that the `start > end` ValueError raised inside the `try`
  block is caught by that block's own `except ValueError` handler and re-raised
  as an "Invalid date format in vacation block" error.
* `CalendarManager`, `get_day_info` and `calculate_statistics` model the class
  of the same name, its classifier and its statistics aggregator.
-/

deriving instance DecidableEq for Except

/-! ### Dates (datetime.date) -/

/-- A Python `datetime.date` value: year, month, day.
`date(y, m, d)` only constructs values satisfying `validDate` below. -/
structure PyDate where
  year : Nat
  month : Nat
  day : Nat
deriving DecidableEq, Repr

/-- Python `calendar.isleap` / `datetime._is_leap`:
`year % 4 == 0 and (year % 100 != 0 or year % 400 == 0)`. -/
def isLeapYear (y : Nat) : Bool :=
  y % 4 == 0 && (y % 100 != 0 || y % 400 == 0)

/-- Python `datetime._days_in_month`. -/
def daysInMonth (y m : Nat) : Nat :=
  if m == 2 then (if isLeapYear y then 29 else 28)
  else if m == 4 || m == 6 || m == 9 || m == 11 then 30
  else 31

/-- The checks performed by the `datetime.date` constructor:
`MINYEAR <= year <= MAXYEAR`, `1 <= month <= 12`, `1 <= day <= days_in_month`. -/
def validDate (y m d : Nat) : Prop :=
  1 ≤ y ∧ y ≤ 9999 ∧ 1 ≤ m ∧ m ≤ 12 ∧ 1 ≤ d ∧ d ≤ daysInMonth y m

instance (y m d : Nat) : Decidable (validDate y m d) := by
  unfold validDate; infer_instance

/-- Python `datetime._days_before_year`:
`(y-1)*365 + (y-1)//4 - (y-1)//100 + (y-1)//400`. -/
def daysBeforeYear (y : Nat) : Nat :=
  365 * (y - 1) + (y - 1) / 4 - (y - 1) / 100 + (y - 1) / 400

/-- Python `datetime._days_before_month`: days in year `y` preceding month `m`. -/
def daysBeforeMonth (y : Nat) : Nat → Nat
  | 0 => 0
  | 1 => 0
  | m + 2 => daysBeforeMonth y (m + 1) + daysInMonth y (m + 1)

/-- Python `date.toordinal()`: day number in the proleptic Gregorian calendar,
with `date(1, 1, 1).toordinal() == 1`. -/
def toordinal (d : PyDate) : Nat :=
  daysBeforeYear d.year + daysBeforeMonth d.year d.month + d.day

/-- Python `date.weekday()`: Monday is 0, Sunday is 6.
`date(1, 1, 1)` (ordinal 1) is a Monday. -/
def weekday (d : PyDate) : Nat :=
  (toordinal d + 6) % 7

/-- Python `date.__le__`: dates compare lexicographically by (year, month, day). -/
def dateLe (a b : PyDate) : Prop :=
  a.year < b.year ∨
    (a.year = b.year ∧
      (a.month < b.month ∨ (a.month = b.month ∧ a.day ≤ b.day)))

instance (a b : PyDate) : Decidable (dateLe a b) := by
  unfold dateLe; infer_instance

/-- Python `date + timedelta(days=1)` on valid dates. -/
def nextDate (d : PyDate) : PyDate :=
  if d.day < daysInMonth d.year d.month then ⟨d.year, d.month, d.day + 1⟩
  else if d.month < 12 then ⟨d.year, d.month + 1, 1⟩
  else ⟨d.year + 1, 1, 1⟩

/-- The source's day-by-day loop `while current <= stop: ...; current += timedelta(days=1)`,
unrolled into the list of visited dates.  The fuel argument is an upper bound on
the number of iterations; `daysList` below supplies the exact count. -/
def daysListAux : Nat → PyDate → PyDate → List PyDate
  | 0, _, _ => []
  | fuel + 1, cur, stop =>
    if dateLe cur stop then cur :: daysListAux fuel (nextDate cur) stop else []

/-- The inclusive list of dates visited by `while current <= stop` starting at `start`. -/
def daysList (start stop : PyDate) : List PyDate :=
  daysListAux (toordinal stop + 1 - toordinal start) start stop

/-- Zero-pad a number to two digits, as `strftime` does for `%m` and `%d`. -/
def pad2 (n : Nat) : String :=
  if n < 10 then "0" ++ toString n else toString n

/-- Zero-pad a number to four digits, as `strftime` does for `%Y`. -/
def pad4 (n : Nat) : String :=
  if n < 10 then "000" ++ toString n
  else if n < 100 then "00" ++ toString n
  else if n < 1000 then "0" ++ toString n
  else toString n

/-- Python `date.strftime('%Y-%m-%d')`. -/
def fmtDate (d : PyDate) : String :=
  pad4 d.year ++ "-" ++ pad2 d.month ++ "-" ++ pad2 d.day

/-! ### Date parsing (datetime.strptime with format "%Y-%m-%d") -/

/-- An ASCII digit `0`-`9`.  The month and day regex fragments use only
explicit ASCII ranges (`[0-2]`, `[1-9]`, ...) except for the `\d` occurrences
modelled by `isNd` below; `isDig` is also the digit notion of the
specification's literal `YYYY-MM-DD` form. -/
def isDig (c : Char) : Bool :=
  48 ≤ c.toNat && c.toNat ≤ 57

/-- Numeric value of an ASCII digit character. -/
def cv (c : Char) : Nat :=
  c.toNat - 48

/-- First code points of the Unicode `Nd` (decimal digit) ranges, each ten
consecutive code points `0`..`9`, per Unicode 15.0's
`DerivedGeneralCategory.txt` (the table shipped with CPython 3.12);
`0x1D7CE..0x1D7FF` are five consecutive styled ranges of mathematical digits. -/
def ndRangeStarts : List Nat :=
  [0x0030, 0x0660, 0x06F0, 0x07C0, 0x0966, 0x09E6, 0x0A66, 0x0AE6, 0x0B66,
   0x0BE6, 0x0C66, 0x0CE6, 0x0D66, 0x0DE6, 0x0E50, 0x0ED0, 0x0F20, 0x1040,
   0x1090, 0x17E0, 0x1810, 0x1946, 0x19D0, 0x1A80, 0x1A90, 0x1B50, 0x1BB0,
   0x1C40, 0x1C50, 0xA620, 0xA8D0, 0xA900, 0xA9D0, 0xA9F0, 0xAA50, 0xABF0,
   0xFF10, 0x104A0, 0x10D30, 0x11066, 0x110F0, 0x11136, 0x111D0, 0x112F0,
   0x11450, 0x114D0, 0x11650, 0x116C0, 0x11730, 0x118E0, 0x11950, 0x11C50,
   0x11D50, 0x11DA0, 0x11F50, 0x16A60, 0x16AC0, 0x16B50, 0x1D7CE, 0x1D7D8,
   0x1D7E2, 0x1D7EC, 0x1D7F6, 0x1E140, 0x1E2F0, 0x1E4F0, 0x1E950, 0x1FBF0]

/-- A Unicode decimal digit (category `Nd`).  `_strptime` compiles its format
regexes without `re.ASCII`, so `\d` matches exactly the `Nd` digits (e.g.
Arabic-Indic `٥`, but not superscript `²`), and `int()` converts strings of
such digits by their digit values.  The table above is Unicode 15.0's; in the
older interpreters the source supports (3.8+) the only difference is that
digit ranges of scripts not yet encoded there (the last few entries) are
absent. -/
def isNd (c : Char) : Bool :=
  ndRangeStarts.any (fun s => s ≤ c.toNat && c.toNat < s + 10)

/-- Digit value of a Unicode decimal digit: its offset in its `Nd` range,
matching `int()`'s conversion.  (0 for non-digits; only used under `isNd`.) -/
def ndVal (c : Char) : Nat :=
  match ndRangeStarts.find? (fun s => s ≤ c.toNat && c.toNat < s + 10) with
  | some s => c.toNat - s
  | none => 0

/-- CPython `_strptime` regex fragment for `%m`: `1[0-2]|0[1-9]|[1-9]`,
alternatives tried in order; returns the month value and the unconsumed input.
(When the two-character alternative `1[0-2]` matches, its second character is a
digit, so backtracking into the one-character alternative `[1-9]` can never
satisfy the literal `-` that follows the month in the full pattern; first-match
semantics are therefore faithful.) -/
def matchMonth : List Char → Option (Nat × List Char)
  | c1 :: c2 :: rest =>
    if c1.toNat = 49 ∧ 48 ≤ c2.toNat ∧ c2.toNat ≤ 50 then
      some (10 + cv c2, rest)
    else if c1.toNat = 48 ∧ 49 ≤ c2.toNat ∧ c2.toNat ≤ 57 then
      some (cv c2, rest)
    else if 49 ≤ c1.toNat ∧ c1.toNat ≤ 57 then
      some (cv c1, c2 :: rest)
    else none
  | [c1] =>
    if 49 ≤ c1.toNat ∧ c1.toNat ≤ 57 then some (cv c1, []) else none
  | [] => none

/-- CPython `_strptime` regex fragment for `%d`: `3[01]|[12]\d|0[1-9]|[1-9]`,
alternatives tried in order.  The `\d` in the `[12]\d` alternative matches any
Unicode decimal digit (see `isNd`); the other classes are explicit ASCII
ranges. -/
def matchDay : List Char → Option (Nat × List Char)
  | c1 :: c2 :: rest =>
    if c1.toNat = 51 ∧ (c2.toNat = 48 ∨ c2.toNat = 49) then
      some (30 + cv c2, rest)
    else if (c1.toNat = 49 ∨ c1.toNat = 50) ∧ isNd c2 = true then
      some (10 * cv c1 + ndVal c2, rest)
    else if c1.toNat = 48 ∧ 49 ≤ c2.toNat ∧ c2.toNat ≤ 57 then
      some (cv c2, rest)
    else if 49 ≤ c1.toNat ∧ c1.toNat ≤ 57 then
      some (cv c1, c2 :: rest)
    else none
  | [c1] =>
    if 49 ≤ c1.toNat ∧ c1.toNat ≤ 57 then some (cv c1, []) else none
  | [] => none

/-- `datetime.strptime(s, "%Y-%m-%d").date()` on the character list of `s`:
match `\d\d\d\d` (four Unicode decimal digits, `int()`-converted by digit
value), the literal `-`, the `%m` fragment, the literal `-`, the `%d`
fragment; fail if any part does not match or if input remains unconsumed
("unconverted data remains"); finally apply the `date(y, m, d)` constructor
checks.  Returns `none` where Python raises `ValueError`. -/
def parseDateChars : List Char → Option PyDate
  | c1 :: c2 :: c3 :: c4 :: c5 :: rest =>
    if isNd c1 && isNd c2 && isNd c3 && isNd c4 && (c5 == '-') then
      match matchMonth rest with
      | some (m, c6 :: rest2) =>
        if c6 == '-' then
          match matchDay rest2 with
          | some (d, []) =>
            let y := 1000 * ndVal c1 + 100 * ndVal c2 + 10 * ndVal c3 + ndVal c4
            if validDate y m d then some ⟨y, m, d⟩ else none
          | _ => none
        else none
      | _ => none
    else none
  | _ => none

/-- `CalendarManager._parse_date` / the validators' date parsing:
`datetime.strptime(date_str, "%Y-%m-%d").date()`. -/
def parseDate (s : String) : Option PyDate :=
  parseDateChars s.data

/-! ### Configuration documents and validators (config_manager.py) -/

/-- A JSON value that may sit in the `year` field: an integer or something else. -/
inductive YearField where
  | int (n : Int)
  | nonInt
deriving DecidableEq, Repr

/-- One entry of a holiday configuration document; `none` marks an absent field. -/
structure HolidayEntryDoc where
  date : Option String
  description : Option String
deriving DecidableEq, Repr

/-- One block of a vacation configuration document; `none` marks an absent field. -/
structure VacBlockDoc where
  description : Option String
  start : Option String
  stop : Option String
deriving DecidableEq, Repr

/-- The `holidays` (resp. `vacationBlocks`) field: a JSON list or something else. -/
inductive ListField (α : Type) where
  | list (xs : List α)
  | nonList
deriving DecidableEq, Repr

/-- A holiday configuration document as loaded from JSON. -/
structure HolidayConfigDoc where
  region : Option String
  year : Option YearField
  holidays : Option (ListField HolidayEntryDoc)
deriving DecidableEq, Repr

/-- A vacation configuration document as loaded from JSON. -/
structure VacConfigDoc where
  firstName : Option String
  lastName : Option String
  year : Option YearField
  region : Option String
  vacationBlocks : Option (ListField VacBlockDoc)
deriving DecidableEq, Repr

/-- The kinds of `ValueError` the validators raise, named by their messages:
`missingField f` for "Missing required field ...: f", `invalidType` for
"Year must be an integer" / "... must be a list", `invalidDateFormat` for
"Invalid date format in ...", `invalidRange` for "Start date ... is after
end date ...". -/
inductive ValErr where
  | missingField (field : String)
  | invalidType (what : String)
  | invalidDateFormat
  | invalidRange
deriving DecidableEq, Repr

/-- The body of the `try` block in `_validate_vacation_config`'s per-block loop:
parse `start`, parse `end`, raise the range error if `start > end`.
(The year-mismatch check that follows only logs a warning.)
Both date strings are known present at this point. -/
def vacBlockTryBody (start stop : String) : Except ValErr Unit :=
  match parseDate start with
  | none => .error .invalidDateFormat
  | some startDate =>
    match parseDate stop with
    | none => .error .invalidDateFormat
    | some endDate =>
      if dateLe startDate endDate then .ok ()
      else .error .invalidRange

/-- The per-block validation of `_validate_vacation_config`: required fields,
then the `try` block; any `ValueError` raised inside the `try` — including the
range error it raises itself — is caught by `except ValueError` and re-raised
as "Invalid date format in vacation block". -/
def validateVacBlock (b : VacBlockDoc) : Except ValErr Unit :=
  if b.description.isNone then .error (.missingField "description")
  else if b.start.isNone then .error (.missingField "start")
  else if b.stop.isNone then .error (.missingField "end")
  else
    match vacBlockTryBody (b.start.getD "") (b.stop.getD "") with
    | .ok _ => .ok ()
    | .error _ => .error .invalidDateFormat

/-- Validate each block in order; the first failure aborts. -/
def validateVacBlocks : List VacBlockDoc → Except ValErr Unit
  | [] => .ok ()
  | b :: rest =>
    match validateVacBlock b with
    | .ok _ => validateVacBlocks rest
    | .error e => .error e

/-- `ConfigManager._validate_vacation_config`. -/
def validate_vacation_config (c : VacConfigDoc) : Except ValErr Unit :=
  if c.firstName.isNone then .error (.missingField "firstName")
  else if c.lastName.isNone then .error (.missingField "lastName")
  else if c.year.isNone then .error (.missingField "year")
  else if c.region.isNone then .error (.missingField "region")
  else if c.vacationBlocks.isNone then .error (.missingField "vacationBlocks")
  else
    match c.year.getD (.int 0) with
    | .nonInt => .error (.invalidType "year")
    | .int _ =>
      match c.vacationBlocks.getD (.list []) with
      | .nonList => .error (.invalidType "vacationBlocks")
      | .list bs => validateVacBlocks bs

/-- The per-entry validation of `_validate_holiday_config`: required fields,
then `strptime` inside a `try` whose handler raises "Invalid date format in
holiday".  (The year-mismatch check only logs a warning.) -/
def validateHolidayEntry (h : HolidayEntryDoc) : Except ValErr Unit :=
  if h.date.isNone then .error (.missingField "date")
  else if h.description.isNone then .error (.missingField "description")
  else
    match parseDate (h.date.getD "") with
    | none => .error .invalidDateFormat
    | some _ => .ok ()

/-- Validate each holiday entry in order; the first failure aborts. -/
def validateHolidayEntries : List HolidayEntryDoc → Except ValErr Unit
  | [] => .ok ()
  | h :: rest =>
    match validateHolidayEntry h with
    | .ok _ => validateHolidayEntries rest
    | .error e => .error e

/-- `ConfigManager._validate_holiday_config`. -/
def validate_holiday_config (c : HolidayConfigDoc) : Except ValErr Unit :=
  if c.region.isNone then .error (.missingField "region")
  else if c.year.isNone then .error (.missingField "year")
  else if c.holidays.isNone then .error (.missingField "holidays")
  else
    match c.holidays.getD (.list []) with
    | .nonList => .error (.invalidType "holidays")
    | .list hs => validateHolidayEntries hs

/-! ### CalendarManager (calendar_manager.py) -/

/-- A holiday entry as `CalendarManager` consumes it (fields present, possibly
malformed date strings). -/
structure HolidayEntry where
  date : String
  description : String
deriving DecidableEq, Repr

/-- A vacation block entry as `CalendarManager` consumes it. -/
structure VacBlockEntry where
  description : String
  start : String
  stop : String
deriving DecidableEq, Repr

/-- A parsed vacation block: the `(start_date, end_date, description, block_id)`
tuple built by `_parse_vacation_blocks`. -/
structure VacationBlock where
  start : PyDate
  stop : PyDate
  description : String
  id : Nat
deriving DecidableEq, Repr

/-- The state of a `CalendarManager`: the year and the two raw configurations. -/
structure CalendarManager where
  year : Nat
  holidayEntries : List HolidayEntry
  vacationBlockEntries : List VacBlockEntry
deriving DecidableEq, Repr

/-- `CalendarManager._parse_holidays`: parse each configured holiday date,
skipping (with a logged warning) entries whose date string does not parse. -/
def parseHolidays : List HolidayEntry → List PyDate
  | [] => []
  | h :: rest =>
    match parseDate h.date with
    | some d => d :: parseHolidays rest
    | none => parseHolidays rest

/-- `CalendarManager._parse_vacation_blocks`: enumerate the configured blocks
(`i` is the position in the configured sequence, counted over all entries,
skipped or not), parse `start` then `end`, skipping (with a logged warning)
blocks whose dates do not parse. -/
def parseVacationBlocksFrom : Nat → List VacBlockEntry → List VacationBlock
  | _, [] => []
  | i, b :: rest =>
    match parseDate b.start with
    | none => parseVacationBlocksFrom (i + 1) rest
    | some s =>
      match parseDate b.stop with
      | none => parseVacationBlocksFrom (i + 1) rest
      | some e => ⟨s, e, b.description, i⟩ :: parseVacationBlocksFrom (i + 1) rest

/-- `self.vacation_blocks`, as computed in `__init__`. -/
def vacationBlocksOf (mgr : CalendarManager) : List VacationBlock :=
  parseVacationBlocksFrom 0 mgr.vacationBlockEntries

/-- `self.holidays`, as computed in `__init__`. -/
def holidaysOf (mgr : CalendarManager) : List PyDate :=
  parseHolidays mgr.holidayEntries

/-- `CalendarManager.is_holiday`: `day in self.holidays`. -/
def is_holiday (mgr : CalendarManager) (day : PyDate) : Bool :=
  decide (day ∈ holidaysOf mgr)

/-- `CalendarManager.get_vacation_block_id`: the id of the first block (in
configured order) with `start <= day <= end`, else `None`. -/
def get_vacation_block_id (mgr : CalendarManager) (day : PyDate) : Option Nat :=
  ((vacationBlocksOf mgr).find? fun b =>
    decide (dateLe b.start day) && decide (dateLe day b.stop)).map (·.id)

/-- `CalendarManager.is_vacation`. -/
def is_vacation (mgr : CalendarManager) (day : PyDate) : Bool :=
  (get_vacation_block_id mgr day).isSome

/-- `CalendarManager.is_weekend`: `day.weekday() >= 5`. -/
def is_weekend (day : PyDate) : Bool :=
  decide (5 ≤ weekday day)

/-- `CalendarManager.get_holiday_description`: re-parse the configured entries
and return the description of the first entry whose date equals `day`, skipping
unparsable entries. -/
def get_holiday_description (mgr : CalendarManager) (day : PyDate) : Option String :=
  (mgr.holidayEntries.find? fun h => parseDate h.date == some day).map (·.description)

/-- `CalendarManager.get_vacation_description`: the description of the first
block containing `day`. -/
def get_vacation_description (mgr : CalendarManager) (day : PyDate) : Option String :=
  ((vacationBlocksOf mgr).find? fun b =>
    decide (dateLe b.start day) && decide (dateLe day b.stop)).map (·.description)

/-- The dictionary returned by `CalendarManager.get_day_info`. -/
structure DayInfo where
  type : String
  display : String
  description : Option String
  vacation_block : Option Nat
deriving DecidableEq, Repr

/-- `CalendarManager.get_day_info`.  A day value of 0 (a calendar-grid padding
cell) short-circuits to the `outside` record before any date is constructed;
otherwise `date(year, month, day)` is constructed (raising `ValueError`, i.e.
`.error`, on invalid triples) and the type is resolved by the precedence
holiday, then weekend, then vacation, then weekday. -/
def get_day_info (mgr : CalendarManager) (year month day : Nat) :
    Except String DayInfo :=
  if day = 0 then
    .ok ⟨"outside", "", none, none⟩
  else if validDate year month day then
    let current : PyDate := ⟨year, month, day⟩
    let vacationBlockId := get_vacation_block_id mgr current
    let dayType :=
      if is_holiday mgr current then "holiday"
      else if is_weekend current then "weekend"
      else if is_vacation mgr current then "vacation"
      else "weekday"
    .ok ⟨dayType, toString day,
      (if dayType = "holiday" then get_holiday_description mgr current
       else if dayType = "vacation" then get_vacation_description mgr current
       else none),
      vacationBlockId⟩
  else .error "ValueError: invalid date"

/-! ### calculate_statistics -/

/-- The running counters of `calculate_statistics`'s main loop. -/
structure StatsAcc where
  total_days : Nat
  workdays : Nat
  weekends : Nat
  holidays : Nat
  vacation_days : Nat
  vacation_workdays : Nat
deriving DecidableEq, Repr

/-- The union (as a membership structure) of all vacation blocks' inclusive day
ranges: the `vacation_block_days` set built before the main loop. -/
def vacationBlockDaysList (blocks : List VacationBlock) : List PyDate :=
  blocks.foldl (fun acc b => acc ++ daysList b.start b.stop) []

/-- One iteration of the main statistics loop, in source order: count the day,
count it as a configured holiday if it is one, split weekend/workday (counting
vacation workdays inside the workday branch), then count raw vacation-block
membership. -/
def statStep (hols blockDays : List PyDate) (a : StatsAcc) (d : PyDate) : StatsAcc :=
  let a := { a with total_days := a.total_days + 1 }
  let a := if d ∈ hols then { a with holidays := a.holidays + 1 } else a
  let a :=
    if is_weekend d then { a with weekends := a.weekends + 1 }
    else
      let a := { a with workdays := a.workdays + 1 }
      if d ∈ blockDays then { a with vacation_workdays := a.vacation_workdays + 1 }
      else a
  if d ∈ blockDays then { a with vacation_days := a.vacation_days + 1 } else a

/-- The per-block record appended to `vacation_blocks_stats`. -/
structure BlockStats where
  id : Nat
  description : String
  start : String
  stop : String
  total_days : Nat
  workdays : Nat
deriving DecidableEq, Repr

/-- The per-block loop of `calculate_statistics`: walk the block's inclusive
range, counting all days and the days that are neither weekend nor configured
holiday. -/
def blockStatsOf (hols : List PyDate) (b : VacationBlock) : BlockStats :=
  let counts := (daysList b.start b.stop).foldl
    (fun (acc : Nat × Nat) d =>
      (acc.1 + 1, if !is_weekend d && !(decide (d ∈ hols)) then acc.2 + 1 else acc.2))
    (0, 0)
  ⟨b.id, b.description, fmtDate b.start, fmtDate b.stop, counts.1, counts.2⟩

/-- The dictionary returned by `calculate_statistics`.  `days_at_work` is a
Python `int` and is modelled as `Int` (it is `workdays - vacation_workdays`). -/
structure YearStats where
  total_days : Nat
  workdays : Nat
  weekends : Nat
  holidays : Nat
  vacation_days : Nat
  vacation_workdays : Nat
  days_off : Nat
  days_at_work : Int
  vacation_blocks : List BlockStats
deriving DecidableEq, Repr

/-- `CalendarManager.calculate_statistics`: loop over every day from January 1
to December 31 of `self.year` accumulating the counters, then derive
`days_off = weekends + holidays + vacation_workdays` and
`days_at_work = workdays - vacation_workdays`, and compute per-block stats. -/
def calculate_statistics (mgr : CalendarManager) : YearStats :=
  let hols := holidaysOf mgr
  let blocks := vacationBlocksOf mgr
  let blockDays := vacationBlockDaysList blocks
  let a := (daysList ⟨mgr.year, 1, 1⟩ ⟨mgr.year, 12, 31⟩).foldl
    (statStep hols blockDays) ⟨0, 0, 0, 0, 0, 0⟩
  { total_days := a.total_days
    workdays := a.workdays
    weekends := a.weekends
    holidays := a.holidays
    vacation_days := a.vacation_days
    vacation_workdays := a.vacation_workdays
    days_off := a.weekends + a.holidays + a.vacation_workdays
    days_at_work := (a.workdays : Int) - (a.vacation_workdays : Int)
    vacation_blocks := blocks.map (blockStatsOf hols) }

/-! ### Specification-side definitions

These are written from the specification's words, not from the source, and are
compared against the source embedding in the claim theorems. -/

/-- Spec notion "a string of the form YYYY-MM-DD": exactly ten characters,
four digits, a dash, two digits, a dash, two digits. -/
def isStrictISO (s : String) : Bool :=
  match s.data with
  | [a, b, c, d, e, f, g, h, i, j] =>
    isDig a && isDig b && isDig c && isDig d && (e == '-') &&
    isDig f && isDig g && (h == '-') && isDig i && isDig j
  | _ => false

/-- Numeric value of a one- or two-ASCII-digit token. -/
def tokenVal : List Char → Nat
  | [c] => cv c
  | [c1, c2] => 10 * cv c1 + cv c2
  | _ => 0

/-- Numeric value of a day token; the units digit of a two-digit day may be a
non-ASCII decimal digit (from the `[12]\d` alternative), so it is converted by
its Unicode digit value. -/
def dayTokVal : List Char → Nat
  | [c] => cv c
  | [c1, c2] => 10 * cv c1 + ndVal c2
  | _ => 0

/-- A month written with one ASCII digit 1-9, or two ASCII digits of value
1-12 (zero padding optional).  The `%m` fragment contains no `\d`, only
explicit ASCII ranges, so months are ASCII-only. -/
def isMonthToken (t : List Char) : Prop :=
  (∃ c, t = [c] ∧ isDig c = true ∧ 1 ≤ cv c) ∨
  (∃ c1 c2, t = [c1, c2] ∧ isDig c1 = true ∧ isDig c2 = true ∧
    1 ≤ 10 * cv c1 + cv c2 ∧ 10 * cv c1 + cv c2 ≤ 12)

/-- A day written with one ASCII digit 1-9, or an ASCII tens digit and a units
digit, of value 1-31 (zero padding optional); when the tens digit is 1 or 2
(the `[12]\d` alternative) the units digit may be any Unicode decimal digit,
otherwise (the `3[01]` and `0[1-9]` alternatives) it is ASCII. -/
def isDayToken (t : List Char) : Prop :=
  (∃ c, t = [c] ∧ isDig c = true ∧ 1 ≤ cv c) ∨
  (∃ c1 c2, t = [c1, c2] ∧ isDig c1 = true ∧ isNd c2 = true ∧
    (cv c1 = 1 ∨ cv c1 = 2 ∨ isDig c2 = true) ∧
    1 ≤ 10 * cv c1 + ndVal c2 ∧ 10 * cv c1 + ndVal c2 ≤ 31)

/-- The amended acceptance language of the date parser: a year of exactly four
Unicode decimal digits, a dash, a one- or two-digit month, a dash, a one- or
two-digit day, nothing else, such that the three numbers form a constructible
`datetime.date`. -/
def lenientAccept (l : List Char) : Prop :=
  ∃ y1 y2 y3 y4 mt dt,
    l = y1 :: y2 :: y3 :: y4 :: '-' :: (mt ++ '-' :: dt) ∧
    isNd y1 = true ∧ isNd y2 = true ∧ isNd y3 = true ∧ isNd y4 = true ∧
    isMonthToken mt ∧ isDayToken dt ∧
    validDate (1000 * ndVal y1 + 100 * ndVal y2 + 10 * ndVal y3 + ndVal y4)
      (tokenVal mt) (dayTokVal dt)

/-- Spec category "Holiday": the date equals some configured (parsed) holiday. -/
def HolidayOn (mgr : CalendarManager) (d : PyDate) : Prop :=
  d ∈ holidaysOf mgr

/-- Spec category "Weekend": the ISO weekday is Saturday or Sunday. -/
def WeekendOn (d : PyDate) : Prop :=
  5 ≤ weekday d

/-- Spec category "Vacation": the date lies in the inclusive range of some
configured vacation block. -/
def VacationOn (mgr : CalendarManager) (d : PyDate) : Prop :=
  ∃ b ∈ vacationBlocksOf mgr, dateLe b.start d ∧ dateLe d b.stop

/-- Validity of a `PyDate` value (constructibility as a `datetime.date`). -/
def ValidPyDate (d : PyDate) : Prop :=
  validDate d.year d.month d.day

instance (d : PyDate) : Decidable (ValidPyDate d) := by
  unfold ValidPyDate; infer_instance

/-! ### Date arithmetic lemmas -/

theorem isLeapYear_spec (y : Nat) :
    isLeapYear y = true ↔ (y % 4 = 0 ∧ (y % 100 ≠ 0 ∨ y % 400 = 0)) := by
  simp [isLeapYear, Bool.and_eq_true, Bool.or_eq_true, ne_eq]

set_option maxHeartbeats 2000000 in
theorem daysBeforeYear_succ (y : Nat) (hy : 1 ≤ y) :
    daysBeforeYear (y + 1) =
      daysBeforeYear y + 365 + (if isLeapYear y then 1 else 0) := by
  have hspec := isLeapYear_spec y
  by_cases hl : isLeapYear y = true
  · rw [if_pos hl]
    have hp := hspec.mp hl
    clear hspec hl
    unfold daysBeforeYear
    omega
  · rw [if_neg hl]
    have hp : ¬ (y % 4 = 0 ∧ (y % 100 ≠ 0 ∨ y % 400 = 0)) :=
      fun hc => hl (hspec.mpr hc)
    clear hspec hl
    unfold daysBeforeYear
    have hp' : y % 4 ≠ 0 ∨ (y % 100 = 0 ∧ y % 400 ≠ 0) := by tauto
    clear hp
    rcases hp' with h | ⟨ha, hb⟩
    · omega
    · omega

theorem daysInMonth_pos (y m : Nat) : 1 ≤ daysInMonth y m := by
  simp only [daysInMonth]
  split_ifs <;> omega

theorem daysBeforeMonth_succ (y m : Nat) (hm : 1 ≤ m) :
    daysBeforeMonth y (m + 1) = daysBeforeMonth y m + daysInMonth y m := by
  obtain ⟨k, rfl⟩ : ∃ k, m = k + 1 := ⟨m - 1, by omega⟩
  rfl

theorem daysBeforeMonth_13 (y : Nat) :
    daysBeforeMonth y 13 = 365 + (if isLeapYear y then 1 else 0) := by
  cases hl : isLeapYear y <;>
    simp [daysBeforeMonth, daysInMonth, hl]

theorem daysBeforeMonth_le_succ (y m : Nat) :
    daysBeforeMonth y m ≤ daysBeforeMonth y (m + 1) := by
  match m with
  | 0 => simp [daysBeforeMonth]
  | k + 1 =>
    show daysBeforeMonth y (k + 1) ≤
      daysBeforeMonth y (k + 1) + daysInMonth y (k + 1)
    exact Nat.le_add_right _ _

theorem daysBeforeMonth_mono (y : Nat) {m m' : Nat} (h : m ≤ m') :
    daysBeforeMonth y m ≤ daysBeforeMonth y m' := by
  induction h with
  | refl => exact le_rfl
  | step h ih => exact le_trans ih (daysBeforeMonth_le_succ y _)

theorem daysBeforeYear_le_succ (y : Nat) :
    daysBeforeYear y ≤ daysBeforeYear (y + 1) := by
  cases Nat.eq_zero_or_pos y with
  | inl h =>
    subst h
    unfold daysBeforeYear
    omega
  | inr h =>
    have := daysBeforeYear_succ y h
    omega

theorem daysBeforeYear_mono {y y' : Nat} (h : y ≤ y') :
    daysBeforeYear y ≤ daysBeforeYear y' := by
  induction h with
  | refl => exact le_rfl
  | step h ih => exact le_trans ih (daysBeforeYear_le_succ _)

theorem toordinal_le_daysBeforeYear_succ {a : PyDate} (h : ValidPyDate a) :
    toordinal a ≤ daysBeforeYear (a.year + 1) := by
  obtain ⟨h1, h2, h3, h4, h5, h6⟩ := h
  have hA : daysBeforeMonth a.year a.month + a.day ≤
      daysBeforeMonth a.year (a.month + 1) := by
    rw [daysBeforeMonth_succ a.year a.month h3]; omega
  have hB : daysBeforeMonth a.year (a.month + 1) ≤ daysBeforeMonth a.year 13 :=
    daysBeforeMonth_mono a.year (by omega)
  have hC := daysBeforeMonth_13 a.year
  have hD := daysBeforeYear_succ a.year h1
  unfold toordinal
  omega

theorem toordinal_nextDate {a : PyDate} (h : ValidPyDate a) :
    toordinal (nextDate a) = toordinal a + 1 := by
  obtain ⟨y, m, d⟩ := a
  obtain ⟨h1, h2, h3, h4, h5, h6⟩ := h
  dsimp only at h1 h2 h3 h4 h5 h6
  dsimp only [nextDate]
  split_ifs with hd hm
  · show daysBeforeYear y + daysBeforeMonth y m + (d + 1) =
      daysBeforeYear y + daysBeforeMonth y m + d + 1
    omega
  · show daysBeforeYear y + daysBeforeMonth y (m + 1) + 1 =
      daysBeforeYear y + daysBeforeMonth y m + d + 1
    rw [daysBeforeMonth_succ y m h3]
    omega
  · have hm12 : m = 12 := by omega
    subst hm12
    have hd31 : d = 31 := by
      have hdim : daysInMonth y 12 = 31 := rfl
      omega
    subst hd31
    show daysBeforeYear (y + 1) + daysBeforeMonth (y + 1) 1 + 1 =
      daysBeforeYear y + daysBeforeMonth y 12 + 31 + 1
    have h13 : daysBeforeMonth y 13 =
        daysBeforeMonth y 12 + daysInMonth y 12 :=
      daysBeforeMonth_succ y 12 (by omega)
    have hdim : daysInMonth y 12 = 31 := rfl
    have hB := daysBeforeMonth_13 y
    have hD := daysBeforeYear_succ y h1
    have h0 : daysBeforeMonth (y + 1) 1 = 0 := rfl
    omega

theorem toordinal_lt {a b : PyDate} (ha : ValidPyDate a) (hb : ValidPyDate b)
    (h : a.year < b.year ∨ (a.year = b.year ∧ (a.month < b.month ∨
      (a.month = b.month ∧ a.day < b.day)))) :
    toordinal a < toordinal b := by
  obtain ⟨a1, a2, a3, a4, a5, a6⟩ := ha
  obtain ⟨b1, b2, b3, b4, b5, b6⟩ := hb
  rcases h with hy | ⟨hy, hm | ⟨hm, hd⟩⟩
  · have hA : toordinal a ≤ daysBeforeYear (a.year + 1) :=
      toordinal_le_daysBeforeYear_succ ⟨a1, a2, a3, a4, a5, a6⟩
    have hB : daysBeforeYear (a.year + 1) ≤ daysBeforeYear b.year :=
      daysBeforeYear_mono (by omega)
    have hC : daysBeforeYear b.year + 1 ≤ toordinal b := by
      unfold toordinal; omega
    omega
  · have hA : daysBeforeMonth a.year a.month + a.day ≤
        daysBeforeMonth a.year (a.month + 1) := by
      rw [daysBeforeMonth_succ a.year a.month a3]; omega
    have hB : daysBeforeMonth a.year (a.month + 1) ≤
        daysBeforeMonth a.year b.month :=
      daysBeforeMonth_mono a.year (by omega)
    unfold toordinal
    rw [hy] at hA hB ⊢
    omega
  · unfold toordinal
    rw [hy, hm]
    omega

theorem dateLe_iff_toordinal {a b : PyDate} (ha : ValidPyDate a)
    (hb : ValidPyDate b) : dateLe a b ↔ toordinal a ≤ toordinal b := by
  constructor
  · intro h
    rcases h with hy | ⟨hy, hm | ⟨hm, hd⟩⟩
    · exact le_of_lt (toordinal_lt ha hb (Or.inl hy))
    · exact le_of_lt (toordinal_lt ha hb (Or.inr ⟨hy, Or.inl hm⟩))
    · unfold toordinal
      rw [hy, hm]
      omega
  · intro h
    by_contra hc
    have hlt : b.year < a.year ∨ (b.year = a.year ∧ (b.month < a.month ∨
        (b.month = a.month ∧ b.day < a.day))) := by
      unfold dateLe at hc
      omega
    have := toordinal_lt hb ha hlt
    omega

theorem validDate_nextDate {cur stop : PyDate} (hc : ValidPyDate cur)
    (hs : ValidPyDate stop) (h : toordinal (nextDate cur) ≤ toordinal stop) :
    ValidPyDate (nextDate cur) := by
  obtain ⟨y, m, d⟩ := cur
  obtain ⟨h1, h2, h3, h4, h5, h6⟩ := hc
  have hs' := hs
  obtain ⟨s1, s2, s3, s4, s5, s6⟩ := hs'
  dsimp only at h1 h2 h3 h4 h5 h6
  dsimp only [nextDate] at h ⊢
  split_ifs at h ⊢ with hd hm
  · show validDate y m (d + 1)
    exact ⟨h1, h2, h3, h4, by omega, by omega⟩
  · show validDate y (m + 1) 1
    exact ⟨h1, h2, by omega, by omega, by omega, daysInMonth_pos y (m + 1)⟩
  · have hy : y + 1 ≤ 9999 := by
      by_contra hy9
      have hyy : y = 9999 := by omega
      have hA : toordinal stop ≤ daysBeforeYear (stop.year + 1) :=
        toordinal_le_daysBeforeYear_succ hs
      have hB : daysBeforeYear (stop.year + 1) ≤ daysBeforeYear (9999 + 1) :=
        daysBeforeYear_mono (by omega)
      have hord : toordinal ⟨y + 1, 1, 1⟩ = daysBeforeYear (y + 1) + 1 := rfl
      rw [hord, hyy] at h
      omega
    show validDate (y + 1) 1 1
    exact ⟨by omega, hy, by omega, by omega, by omega,
      daysInMonth_pos (y + 1) 1⟩

theorem daysListAux_length :
    ∀ (fuel : Nat) (cur stop : PyDate), ValidPyDate stop →
      fuel = toordinal stop + 1 - toordinal cur →
      (0 < fuel → ValidPyDate cur) →
      (daysListAux fuel cur stop).length = fuel := by
  intro fuel
  induction fuel with
  | zero => intro cur stop _ _ _; rfl
  | succ k ih =>
    intro cur stop hs hf hc
    have hcv := hc (by omega)
    have hord : toordinal cur ≤ toordinal stop := by omega
    have hle : dateLe cur stop := (dateLe_iff_toordinal hcv hs).mpr hord
    have hnext := toordinal_nextDate hcv
    simp only [daysListAux, if_pos hle, List.length_cons]
    rw [ih (nextDate cur) stop hs (by omega) ?_]
    intro hk
    exact validDate_nextDate hcv hs (by omega)

theorem daysList_length {start stop : PyDate} (h1 : ValidPyDate start)
    (h2 : ValidPyDate stop) :
    (daysList start stop).length = toordinal stop + 1 - toordinal start :=
  daysListAux_length _ start stop h2 rfl (fun _ => h1)

theorem toordinal_jan1 (y : Nat) : toordinal ⟨y, 1, 1⟩ = daysBeforeYear y + 1 := rfl

/-! ### Statistics fold lemmas -/

theorem statStep_total (hols bd : List PyDate) (a : StatsAcc) (d : PyDate) :
    (statStep hols bd a d).total_days = a.total_days + 1 := by
  simp only [statStep]
  split_ifs <;> rfl

theorem statStep_holidays (hols bd : List PyDate) (a : StatsAcc) (d : PyDate) :
    (statStep hols bd a d).holidays =
      a.holidays + (if d ∈ hols then 1 else 0) := by
  simp only [statStep]
  split_ifs <;> simp_all

theorem statStep_weekends (hols bd : List PyDate) (a : StatsAcc) (d : PyDate) :
    (statStep hols bd a d).weekends =
      a.weekends + (if is_weekend d then 1 else 0) := by
  simp only [statStep]
  split_ifs <;> simp_all

theorem statStep_workdays (hols bd : List PyDate) (a : StatsAcc) (d : PyDate) :
    (statStep hols bd a d).workdays =
      a.workdays + (if is_weekend d then 0 else 1) := by
  simp only [statStep]
  split_ifs <;> simp_all

theorem statStep_vacation_days (hols bd : List PyDate) (a : StatsAcc) (d : PyDate) :
    (statStep hols bd a d).vacation_days =
      a.vacation_days + (if d ∈ bd then 1 else 0) := by
  simp only [statStep]
  split_ifs <;> simp_all

theorem statStep_vacation_workdays (hols bd : List PyDate) (a : StatsAcc) (d : PyDate) :
    (statStep hols bd a d).vacation_workdays =
      a.vacation_workdays +
        (if (!is_weekend d && decide (d ∈ bd)) = true then 1 else 0) := by
  simp only [statStep]
  split_ifs <;> simp_all

theorem statsFold_total (hols bd : List PyDate) (l : List PyDate) :
    ∀ a : StatsAcc,
      (l.foldl (statStep hols bd) a).total_days = a.total_days + l.length := by
  induction l with
  | nil => intro a; simp
  | cons x xs ih =>
    intro a
    simp only [List.foldl_cons, List.length_cons]
    rw [ih, statStep_total]
    omega

theorem statsFold_holidays (hols bd : List PyDate) (l : List PyDate) :
    ∀ a : StatsAcc,
      (l.foldl (statStep hols bd) a).holidays =
        a.holidays + l.countP (fun d => decide (d ∈ hols)) := by
  induction l with
  | nil => intro a; simp
  | cons x xs ih =>
    intro a
    simp only [List.foldl_cons, List.countP_cons]
    rw [ih, statStep_holidays]
    by_cases hx : x ∈ hols <;> simp [hx] <;> omega

theorem statsFold_weekends (hols bd : List PyDate) (l : List PyDate) :
    ∀ a : StatsAcc,
      (l.foldl (statStep hols bd) a).weekends =
        a.weekends + l.countP is_weekend := by
  induction l with
  | nil => intro a; simp
  | cons x xs ih =>
    intro a
    simp only [List.foldl_cons, List.countP_cons]
    rw [ih, statStep_weekends]
    by_cases hx : is_weekend x = true <;> simp [hx] <;> omega

theorem statsFold_workdays (hols bd : List PyDate) (l : List PyDate) :
    ∀ a : StatsAcc,
      (l.foldl (statStep hols bd) a).workdays =
        a.workdays + l.countP (fun d => !is_weekend d) := by
  induction l with
  | nil => intro a; simp
  | cons x xs ih =>
    intro a
    simp only [List.foldl_cons, List.countP_cons]
    rw [ih, statStep_workdays]
    by_cases hx : is_weekend x = true <;> simp [hx] <;> omega

theorem statsFold_vacation_days (hols bd : List PyDate) (l : List PyDate) :
    ∀ a : StatsAcc,
      (l.foldl (statStep hols bd) a).vacation_days =
        a.vacation_days + l.countP (fun d => decide (d ∈ bd)) := by
  induction l with
  | nil => intro a; simp
  | cons x xs ih =>
    intro a
    simp only [List.foldl_cons, List.countP_cons]
    rw [ih, statStep_vacation_days]
    by_cases hx : x ∈ bd <;> simp [hx] <;> omega

theorem statsFold_vacation_workdays (hols bd : List PyDate) (l : List PyDate) :
    ∀ a : StatsAcc,
      (l.foldl (statStep hols bd) a).vacation_workdays =
        a.vacation_workdays +
          l.countP (fun d => !is_weekend d && decide (d ∈ bd)) := by
  induction l with
  | nil => intro a; simp
  | cons x xs ih =>
    intro a
    simp only [List.foldl_cons, List.countP_cons]
    rw [ih, statStep_vacation_workdays]
    by_cases hx : (!is_weekend x && decide (x ∈ bd)) = true <;> simp [hx] <;> omega

theorem blockFold_fst (hols : List PyDate) (l : List PyDate) :
    ∀ acc : Nat × Nat,
      (l.foldl (fun (acc : Nat × Nat) d =>
        (acc.1 + 1,
         if !is_weekend d && !(decide (d ∈ hols)) then acc.2 + 1 else acc.2))
        acc).1 = acc.1 + l.length := by
  induction l with
  | nil => intro acc; simp
  | cons x xs ih =>
    intro acc
    simp only [List.foldl_cons, List.length_cons]
    rw [ih]
    split_ifs <;> simp <;> omega

theorem blockFold_snd (hols : List PyDate) (l : List PyDate) :
    ∀ acc : Nat × Nat,
      (l.foldl (fun (acc : Nat × Nat) d =>
        (acc.1 + 1,
         if !is_weekend d && !(decide (d ∈ hols)) then acc.2 + 1 else acc.2))
        acc).2 =
        acc.2 + l.countP (fun d => !is_weekend d && !(decide (d ∈ hols))) := by
  induction l with
  | nil => intro acc; simp
  | cons x xs ih =>
    intro acc
    simp only [List.foldl_cons, List.countP_cons]
    rw [ih]
    by_cases hx : (!is_weekend x && !(decide (x ∈ hols))) = true <;>
      simp [hx] <;> omega

/-! ### Parser characterization lemmas -/

theorem isDig_iff {c : Char} : isDig c = true ↔ 48 ≤ c.toNat ∧ c.toNat ≤ 57 := by
  simp [isDig]

theorem isNd_iff {c : Char} :
    isNd c = true ↔ ∃ s ∈ ndRangeStarts, s ≤ c.toNat ∧ c.toNat < s + 10 := by
  simp [isNd, List.any_eq_true]

theorem isNd_of_ascii {c : Char} (h1 : 48 ≤ c.toNat) (h2 : c.toNat ≤ 57) :
    isNd c = true := by
  rw [isNd_iff]
  exact ⟨48, by decide, h1, by omega⟩

theorem ndVal_of_ascii {c : Char} (h1 : 48 ≤ c.toNat) (h2 : c.toNat ≤ 57) :
    ndVal c = c.toNat - 48 := by
  unfold ndVal ndRangeStarts
  rw [List.find?_cons_of_pos _ (by simp; omega)]

theorem ndVal_le_nine (c : Char) : ndVal c ≤ 9 := by
  unfold ndVal
  cases hf : ndRangeStarts.find? (fun s => s ≤ c.toNat && c.toNat < s + 10) with
  | none => simp
  | some s =>
    have hp := List.find?_some hf
    simp only [Bool.and_eq_true, decide_eq_true_eq] at hp
    show c.toNat - s ≤ 9
    omega

theorem matchMonth_sound {l r : List Char} {m : Nat}
    (h : matchMonth l = some (m, r)) :
    ∃ t, l = t ++ r ∧ isMonthToken t ∧ tokenVal t = m := by
  rcases l with _ | ⟨c1, _ | ⟨c2, rest⟩⟩
  · simp [matchMonth] at h
  · simp only [matchMonth] at h
    split_ifs at h with h1
    · simp only [Option.some.injEq, Prod.mk.injEq] at h
      obtain ⟨hm, hr⟩ := h
      refine ⟨[c1], by simp [hr], Or.inl ⟨c1, rfl, ?_, ?_⟩, hm⟩
      · rw [isDig_iff]
        omega
      · show 1 ≤ cv c1
        unfold cv
        omega
  · simp only [matchMonth] at h
    split_ifs at h with h1 h2 h3
    · simp only [Option.some.injEq, Prod.mk.injEq] at h
      obtain ⟨hm, hr⟩ := h
      refine ⟨[c1, c2], by simp [hr], Or.inr ⟨c1, c2, rfl, ?_, ?_, ?_, ?_⟩, ?_⟩
      · rw [isDig_iff]; omega
      · rw [isDig_iff]; omega
      · unfold cv; omega
      · unfold cv; omega
      · show 10 * cv c1 + cv c2 = m
        unfold cv at hm ⊢
        omega
    · simp only [Option.some.injEq, Prod.mk.injEq] at h
      obtain ⟨hm, hr⟩ := h
      refine ⟨[c1, c2], by simp [hr], Or.inr ⟨c1, c2, rfl, ?_, ?_, ?_, ?_⟩, ?_⟩
      · rw [isDig_iff]; omega
      · rw [isDig_iff]; omega
      · unfold cv; omega
      · unfold cv; omega
      · show 10 * cv c1 + cv c2 = m
        unfold cv at hm ⊢
        omega
    · simp only [Option.some.injEq, Prod.mk.injEq] at h
      obtain ⟨hm, hr⟩ := h
      refine ⟨[c1], by simp [hr], Or.inl ⟨c1, rfl, ?_, ?_⟩, hm⟩
      · rw [isDig_iff]
        omega
      · show 1 ≤ cv c1
        unfold cv
        omega

theorem matchDay_sound {l r : List Char} {d : Nat}
    (h : matchDay l = some (d, r)) :
    ∃ t, l = t ++ r ∧ isDayToken t ∧ dayTokVal t = d := by
  rcases l with _ | ⟨c1, _ | ⟨c2, rest⟩⟩
  · simp [matchDay] at h
  · simp only [matchDay] at h
    split_ifs at h with h1
    · simp only [Option.some.injEq, Prod.mk.injEq] at h
      obtain ⟨hm, hr⟩ := h
      refine ⟨[c1], by simp [hr], Or.inl ⟨c1, rfl, ?_, ?_⟩, hm⟩
      · rw [isDig_iff]
        omega
      · show 1 ≤ cv c1
        unfold cv
        omega
  · simp only [matchDay] at h
    split_ifs at h with h1 h2 h3 h4
    · simp only [Option.some.injEq, Prod.mk.injEq] at h
      obtain ⟨hm, hr⟩ := h
      have hnv : ndVal c2 = c2.toNat - 48 := ndVal_of_ascii (by omega) (by omega)
      refine ⟨[c1, c2], by simp [hr],
        Or.inr ⟨c1, c2, rfl, ?_, isNd_of_ascii (by omega) (by omega),
          ?_, ?_, ?_⟩, ?_⟩
      · rw [isDig_iff]; omega
      · right; right; rw [isDig_iff]; omega
      · show 1 ≤ 10 * cv c1 + ndVal c2
        unfold cv
        omega
      · show 10 * cv c1 + ndVal c2 ≤ 31
        unfold cv
        omega
      · show 10 * cv c1 + ndVal c2 = d
        unfold cv at hm ⊢
        omega
    · obtain ⟨h2a, h2b⟩ := h2
      simp only [Option.some.injEq, Prod.mk.injEq] at h
      obtain ⟨hm, hr⟩ := h
      have hle := ndVal_le_nine c2
      refine ⟨[c1, c2], by simp [hr],
        Or.inr ⟨c1, c2, rfl, ?_, h2b, ?_, ?_, ?_⟩, hm⟩
      · rw [isDig_iff]; omega
      · rcases h2a with hc | hc
        · left; unfold cv; omega
        · right; left; unfold cv; omega
      · show 1 ≤ 10 * cv c1 + ndVal c2
        unfold cv
        omega
      · show 10 * cv c1 + ndVal c2 ≤ 31
        unfold cv
        omega
    · simp only [Option.some.injEq, Prod.mk.injEq] at h
      obtain ⟨hm, hr⟩ := h
      have hnv : ndVal c2 = c2.toNat - 48 := ndVal_of_ascii (by omega) (by omega)
      refine ⟨[c1, c2], by simp [hr],
        Or.inr ⟨c1, c2, rfl, ?_, isNd_of_ascii (by omega) (by omega),
          ?_, ?_, ?_⟩, ?_⟩
      · rw [isDig_iff]; omega
      · right; right; rw [isDig_iff]; omega
      · show 1 ≤ 10 * cv c1 + ndVal c2
        unfold cv
        omega
      · show 10 * cv c1 + ndVal c2 ≤ 31
        unfold cv
        omega
      · show 10 * cv c1 + ndVal c2 = d
        unfold cv at hm ⊢
        omega
    · simp only [Option.some.injEq, Prod.mk.injEq] at h
      obtain ⟨hm, hr⟩ := h
      refine ⟨[c1], by simp [hr], Or.inl ⟨c1, rfl, ?_, ?_⟩, hm⟩
      · rw [isDig_iff]
        omega
      · show 1 ≤ cv c1
        unfold cv
        omega

theorem matchMonth_complete {t : List Char} (ht : isMonthToken t) (r : List Char) :
    matchMonth (t ++ '-' :: r) = some (tokenVal t, '-' :: r) := by
  have hdash : ('-').toNat = 45 := rfl
  rcases ht with ⟨c, rfl, hd, h1⟩ | ⟨c1, c2, rfl, hd1, hd2, h1, h2⟩
  · rw [isDig_iff] at hd
    unfold cv at h1
    simp only [List.cons_append, List.nil_append, matchMonth]
    split_ifs with hA hB hC
    · exfalso; omega
    · exfalso; omega
    · rfl
    · exfalso; omega
  · rw [isDig_iff] at hd1 hd2
    unfold cv at h1 h2
    have htv : tokenVal [c1, c2] = 10 * cv c1 + cv c2 := rfl
    simp only [List.cons_append, List.nil_append, matchMonth]
    split_ifs with hA hB hC
    · have hval : 10 + cv c2 = tokenVal [c1, c2] := by
        rw [htv]; unfold cv; omega
      rw [hval]
    · have hval : cv c2 = tokenVal [c1, c2] := by
        rw [htv]; unfold cv; omega
      rw [hval]
    · exfalso; omega
    · exfalso; omega

theorem matchDay_complete {t : List Char} (ht : isDayToken t) :
    matchDay t = some (dayTokVal t, []) := by
  rcases ht with ⟨c, rfl, hd, h1⟩ | ⟨c1, c2, rfl, hd1, hnd, hside, hlo, hhi⟩
  · rw [isDig_iff] at hd
    unfold cv at h1
    simp only [matchDay]
    split_ifs with hA
    · rfl
    · exfalso; omega
  · rw [isDig_iff] at hd1
    have hnine := ndVal_le_nine c2
    simp only [matchDay]
    split_ifs with hA hB hC hD
    · have hnv : ndVal c2 = c2.toNat - 48 := ndVal_of_ascii (by omega) (by omega)
      have hval : 30 + cv c2 = dayTokVal [c1, c2] := by
        show 30 + cv c2 = 10 * cv c1 + ndVal c2
        unfold cv
        omega
      rw [hval]
    · rfl
    · have hnv : ndVal c2 = c2.toNat - 48 := ndVal_of_ascii (by omega) (by omega)
      have hval : cv c2 = dayTokVal [c1, c2] := by
        show cv c2 = 10 * cv c1 + ndVal c2
        unfold cv
        omega
      rw [hval]
    · exfalso
      by_cases hc1 : c1.toNat = 49 ∨ c1.toNat = 50
      · exact hB ⟨hc1, hnd⟩
      · rcases hside with hs | hs | hs
        · unfold cv at hs; omega
        · unfold cv at hs; omega
        · rw [isDig_iff] at hs
          have hnv : ndVal c2 = c2.toNat - 48 :=
            ndVal_of_ascii (by omega) (by omega)
          unfold cv at hlo hhi
          omega
    · exfalso
      rcases hside with hs | hs | hs
      · unfold cv at hs; omega
      · unfold cv at hs; omega
      · rw [isDig_iff] at hs
        have hnv : ndVal c2 = c2.toNat - 48 :=
          ndVal_of_ascii (by omega) (by omega)
        unfold cv at hlo hhi
        omega

theorem parseDateChars_some_inv {l : List Char} {dt : PyDate}
    (h : parseDateChars l = some dt) : ValidPyDate dt ∧ lenientAccept l := by
  rcases l with _ | ⟨c1, _ | ⟨c2, _ | ⟨c3, _ | ⟨c4, _ | ⟨c5, rest⟩⟩⟩⟩⟩
  · simp [parseDateChars] at h
  · simp [parseDateChars] at h
  · simp [parseDateChars] at h
  · simp [parseDateChars] at h
  · simp [parseDateChars] at h
  · simp only [parseDateChars] at h
    by_cases hg :
        (isNd c1 && isNd c2 && isNd c3 && isNd c4 && (c5 == '-')) = true
    · rw [if_pos hg] at h
      simp only [Bool.and_eq_true, beq_iff_eq] at hg
      obtain ⟨⟨⟨⟨hg1, hg2⟩, hg3⟩, hg4⟩, hg5⟩ := hg
      subst hg5
      cases hm : matchMonth rest with
      | none => rw [hm] at h; simp at h
      | some p =>
        obtain ⟨mval, r2⟩ := p
        rw [hm] at h
        cases r2 with
        | nil => simp at h
        | cons c6 rest2 =>
          dsimp only at h
          by_cases h6 : (c6 == '-') = true
          · rw [if_pos h6] at h
            replace h6 : c6 = '-' := by simpa using h6
            subst h6
            cases hd : matchDay rest2 with
            | none => rw [hd] at h; simp at h
            | some q =>
              obtain ⟨dval, r3⟩ := q
              rw [hd] at h
              cases r3 with
              | nil =>
                dsimp only at h
                by_cases hv : validDate
                    (1000 * ndVal c1 + 100 * ndVal c2 + 10 * ndVal c3 +
                      ndVal c4) mval dval
                · rw [if_pos hv] at h
                  simp only [Option.some.injEq] at h
                  subst h
                  refine ⟨hv, ?_⟩
                  obtain ⟨tm, htm_eq, htm_tok, htm_val⟩ := matchMonth_sound hm
                  obtain ⟨td, htd_eq, htd_tok, htd_val⟩ := matchDay_sound hd
                  rw [List.append_nil] at htd_eq
                  refine ⟨c1, c2, c3, c4, tm, td, ?_, hg1, hg2, hg3, hg4,
                    htm_tok, htd_tok, ?_⟩
                  · rw [htm_eq, htd_eq]
                  · rw [htm_val, htd_val]
                    exact hv
                · rw [if_neg hv] at h
                  simp at h
              | cons e f =>
                dsimp only at h
                simp at h
          · rw [if_neg h6] at h
            simp at h
    · rw [if_neg hg] at h
      simp at h

theorem parseDateChars_of_lenient {l : List Char} (h : lenientAccept l) :
    (parseDateChars l).isSome = true := by
  obtain ⟨y1, y2, y3, y4, mt, dt, heq, h1, h2, h3, h4, hmt, hdt, hv⟩ := h
  subst heq
  simp only [parseDateChars]
  have hg : (isNd y1 && isNd y2 && isNd y3 && isNd y4 && ('-' == '-')) = true := by
    simp [h1, h2, h3, h4]
  rw [if_pos hg]
  rw [matchMonth_complete hmt dt]
  dsimp only
  rw [if_pos (show (('-' : Char) == '-') = true from rfl)]
  rw [matchDay_complete hdt]
  dsimp only
  rw [if_pos hv]
  rfl

theorem parseDate_isSome_iff (s : String) :
    (parseDate s).isSome = true ↔ lenientAccept s.data := by
  constructor
  · intro h
    obtain ⟨dt, hdt⟩ := Option.isSome_iff_exists.mp h
    exact (parseDateChars_some_inv hdt).2
  · exact parseDateChars_of_lenient

theorem parseDate_valid {s : String} {dt : PyDate} (h : parseDate s = some dt) :
    ValidPyDate dt :=
  (parseDateChars_some_inv h).1

theorem parseVacationBlocksFrom_valid :
    ∀ (i : Nat) (es : List VacBlockEntry) (b : VacationBlock),
      b ∈ parseVacationBlocksFrom i es →
        ValidPyDate b.start ∧ ValidPyDate b.stop := by
  intro i es
  induction es generalizing i with
  | nil =>
    intro b hb
    simp [parseVacationBlocksFrom] at hb
  | cons e rest ih =>
    intro b hb
    simp only [parseVacationBlocksFrom] at hb
    cases hs : parseDate e.start with
    | none =>
      rw [hs] at hb
      exact ih (i + 1) b hb
    | some sd =>
      rw [hs] at hb
      cases hp : parseDate e.stop with
      | none =>
        rw [hp] at hb
        exact ih (i + 1) b hb
      | some ed =>
        rw [hp] at hb
        rcases List.mem_cons.mp hb with hb1 | hb2
        · subst hb1
          exact ⟨parseDate_valid hs, parseDate_valid hp⟩
        · exact ih (i + 1) b hb2

theorem parseHolidays_eq_filterMap (hs : List HolidayEntry) :
    parseHolidays hs = hs.filterMap (fun h => parseDate h.date) := by
  induction hs with
  | nil => rfl
  | cons e rest ih =>
    cases hp : parseDate e.date with
    | none =>
      simp only [parseHolidays, List.filterMap_cons, hp]
      exact ih
    | some d =>
      simp only [parseHolidays, List.filterMap_cons, hp]
      rw [ih]

theorem parseVacationBlocksFrom_eq (es : List VacBlockEntry) :
    ∀ i : Nat,
      parseVacationBlocksFrom i es =
        (es.enumFrom i).filterMap (fun p =>
          match parseDate p.2.start, parseDate p.2.stop with
          | some s, some e => some ⟨s, e, p.2.description, p.1⟩
          | _, _ => none) := by
  induction es with
  | nil => intro i; rfl
  | cons e rest ih =>
    intro i
    cases hs : parseDate e.start <;> cases hp : parseDate e.stop <;>
      simp [parseVacationBlocksFrom, hs, hp, ih, List.enumFrom]

/-! ### Classifier characterization lemmas -/

theorem is_holiday_iff (mgr : CalendarManager) (d : PyDate) :
    is_holiday mgr d = true ↔ HolidayOn mgr d := by
  simp [is_holiday, HolidayOn]

theorem is_weekend_iff (d : PyDate) :
    is_weekend d = true ↔ WeekendOn d := by
  simp [is_weekend, WeekendOn]

theorem isSome_map_id_aux (o : Option VacationBlock) :
    (o.map (fun b => b.id)).isSome = o.isSome := by
  cases o <;> rfl

theorem is_vacation_iff (mgr : CalendarManager) (d : PyDate) :
    is_vacation mgr d = true ↔ VacationOn mgr d := by
  simp only [is_vacation, get_vacation_block_id, isSome_map_id_aux]
  rw [List.find?_isSome]
  simp only [Bool.and_eq_true, decide_eq_true_eq, VacationOn]

theorem toordinal_dec31 (y : Nat) :
    toordinal ⟨y, 12, 31⟩ =
      daysBeforeYear y + 365 + (if isLeapYear y then 1 else 0) := by
  have h13 : daysBeforeMonth y 13 = daysBeforeMonth y 12 + daysInMonth y 12 :=
    daysBeforeMonth_succ y 12 (by omega)
  have hdim : daysInMonth y 12 = 31 := rfl
  have hB := daysBeforeMonth_13 y
  unfold toordinal
  simp only
  omega

/-! ### Concrete configurations used by the claim theorems -/

/-- One vacation block covering Friday 2025-01-03 through Sunday 2025-01-05. -/
def mgrJanBlock : CalendarManager :=
  ⟨2025, [], [⟨"early January", "2025-01-03", "2025-01-05"⟩]⟩

/-- A single configured holiday, Christmas 2025 (a Thursday); no vacation. -/
def mgrXmas : CalendarManager :=
  ⟨2025, [⟨"2025-12-25", "Christmas"⟩], []⟩

/-- Two vacation blocks that both cover exactly 2025-01-01 (a Wednesday). -/
def mgrOverlap : CalendarManager :=
  ⟨2025, [], [⟨"a", "2025-01-01", "2025-01-01"⟩, ⟨"b", "2025-01-01", "2025-01-01"⟩]⟩

/-- A vacation configuration document whose single block has
start 2025-05-10 after end 2025-05-01 (both well-formed dates). -/
def docRangeBad : VacConfigDoc :=
  ⟨some "Ada", some "Lovelace", some (.int 2025), some "CH",
   some (.list [⟨some "reversed block", some "2025-05-10", some "2025-05-01"⟩])⟩

/-- A holiday configuration document with the malformed date 2025-13-40. -/
def docBadDate : HolidayConfigDoc :=
  ⟨some "CH", some (.int 2025),
   some (.list [⟨some "2025-13-40", some "bad date"⟩])⟩

/-- An empty configuration for year 2025. -/
def mgrEmpty2025 : CalendarManager :=
  ⟨2025, [], []⟩

/-- A single configured holiday on Saturday 2025-01-04; no vacation. -/
def mgrSatHoliday : CalendarManager :=
  ⟨2025, [⟨"2025-01-04", "Saturday holiday"⟩], []⟩

/-- A manager built from configurations with one well-formed and one malformed
holiday entry, and one malformed (2025-02-30) and one well-formed block. -/
def mgrMixed : CalendarManager :=
  ⟨2025,
   [⟨"2025-06-05", "good holiday"⟩, ⟨"garbage", "bad holiday"⟩],
   [⟨"bad block", "2025-02-30", "2025-03-05"⟩,
    ⟨"good block", "2025-03-10", "2025-03-12"⟩]⟩

/-! ### Claim theorems -/

/-- C1: for every in-month date (year, month, day) with day ≠ 0 (equivalently,
every constructible date), `get_day_info` assigns exactly one of the four
categories, chosen by the precedence Holiday > Weekend > Vacation > Weekday
with first match winning; in particular a date inside some vacation block whose
weekday is Saturday or Sunday is classified Weekend (or Holiday if it is also a
configured holiday), never Vacation. -/
theorem claim1_classifier_precedence (mgr : CalendarManager) (y m d : Nat)
    (h : validDate y m d) :
    ∃ info : DayInfo, get_day_info mgr y m d = .ok info ∧
      (info.type = "holiday" ∨ info.type = "weekend" ∨ info.type = "vacation" ∨
        info.type = "weekday") ∧
      (info.type = "holiday" ↔ HolidayOn mgr ⟨y, m, d⟩) ∧
      (info.type = "weekend" ↔ ¬ HolidayOn mgr ⟨y, m, d⟩ ∧ WeekendOn ⟨y, m, d⟩) ∧
      (info.type = "vacation" ↔ ¬ HolidayOn mgr ⟨y, m, d⟩ ∧
        ¬ WeekendOn ⟨y, m, d⟩ ∧ VacationOn mgr ⟨y, m, d⟩) ∧
      (info.type = "weekday" ↔ ¬ HolidayOn mgr ⟨y, m, d⟩ ∧
        ¬ WeekendOn ⟨y, m, d⟩ ∧ ¬ VacationOn mgr ⟨y, m, d⟩) ∧
      (WeekendOn ⟨y, m, d⟩ ∧ VacationOn mgr ⟨y, m, d⟩ →
        info.type ≠ "vacation" ∧
          (¬ HolidayOn mgr ⟨y, m, d⟩ → info.type = "weekend")) := by
  have hd0 : ¬ (d = 0) := by
    obtain ⟨_, _, _, _, h5, _⟩ := h
    omega
  simp only [get_day_info, if_neg hd0, if_pos h]
  by_cases hH : is_holiday mgr ⟨y, m, d⟩ = true
  · have hHol : HolidayOn mgr ⟨y, m, d⟩ := (is_holiday_iff mgr _).mp hH
    simp only [hH, if_true]
    refine ⟨_, rfl, Or.inl rfl, ?_, ?_, ?_, ?_, ?_⟩
    · exact iff_of_true rfl hHol
    · constructor
      · intro hs; simp at hs
      · rintro ⟨hn, _⟩; exact absurd hHol hn
    · constructor
      · intro hs; simp at hs
      · rintro ⟨hn, _⟩; exact absurd hHol hn
    · constructor
      · intro hs; simp at hs
      · rintro ⟨hn, _⟩; exact absurd hHol hn
    · rintro ⟨hw, hv⟩
      exact ⟨by simp, fun hn => absurd hHol hn⟩
  · have hnHol : ¬ HolidayOn mgr ⟨y, m, d⟩ := fun hc =>
      hH ((is_holiday_iff mgr _).mpr hc)
    simp only [hH, if_false, Bool.false_eq_true]
    by_cases hW : is_weekend ⟨y, m, d⟩ = true
    · have hWkd : WeekendOn ⟨y, m, d⟩ := (is_weekend_iff _).mp hW
      simp only [hW, if_true]
      refine ⟨_, rfl, Or.inr (Or.inl rfl), ?_, ?_, ?_, ?_, ?_⟩
      · constructor
        · intro hs; simp at hs
        · intro hc; exact absurd hc hnHol
      · exact iff_of_true rfl ⟨hnHol, hWkd⟩
      · constructor
        · intro hs; simp at hs
        · rintro ⟨_, hn, _⟩; exact absurd hWkd hn
      · constructor
        · intro hs; simp at hs
        · rintro ⟨_, hn, _⟩; exact absurd hWkd hn
      · rintro ⟨hw, hv⟩
        exact ⟨by simp, fun _ => rfl⟩
    · have hnWkd : ¬ WeekendOn ⟨y, m, d⟩ := fun hc =>
        hW ((is_weekend_iff _).mpr hc)
      simp only [hW, if_false, Bool.false_eq_true]
      by_cases hV : is_vacation mgr ⟨y, m, d⟩ = true
      · have hVac : VacationOn mgr ⟨y, m, d⟩ := (is_vacation_iff mgr _).mp hV
        simp only [hV, if_true]
        refine ⟨_, rfl, Or.inr (Or.inr (Or.inl rfl)), ?_, ?_, ?_, ?_, ?_⟩
        · constructor
          · intro hs; simp at hs
          · intro hc; exact absurd hc hnHol
        · constructor
          · intro hs; simp at hs
          · rintro ⟨_, hwk⟩; exact absurd hwk hnWkd
        · exact iff_of_true rfl ⟨hnHol, hnWkd, hVac⟩
        · constructor
          · intro hs; simp at hs
          · rintro ⟨_, _, hn⟩; exact absurd hVac hn
        · rintro ⟨hw, hv⟩
          exact absurd hw hnWkd
      · have hnVac : ¬ VacationOn mgr ⟨y, m, d⟩ := fun hc =>
          hV ((is_vacation_iff mgr _).mpr hc)
        simp only [hV, if_false, Bool.false_eq_true]
        refine ⟨_, rfl, Or.inr (Or.inr (Or.inr rfl)), ?_, ?_, ?_, ?_, ?_⟩
        · constructor
          · intro hs; simp at hs
          · intro hc; exact absurd hc hnHol
        · constructor
          · intro hs; simp at hs
          · rintro ⟨_, hwk⟩; exact absurd hwk hnWkd
        · constructor
          · intro hs; simp at hs
          · rintro ⟨_, _, hvc⟩; exact absurd hvc hnVac
        · exact iff_of_true rfl ⟨hnHol, hnWkd, hnVac⟩
        · rintro ⟨hw, hv⟩
          exact absurd hw hnWkd

/-- C1 witness: Saturday 2025-01-04 lies inside the configured block of
`mgrJanBlock`; the theorem instantiated there. -/
theorem claim1_classifier_precedence_witness :
    validDate 2025 1 4 ∧
      (∃ info : DayInfo, get_day_info mgrJanBlock 2025 1 4 = .ok info ∧
        (info.type = "holiday" ∨ info.type = "weekend" ∨ info.type = "vacation" ∨
          info.type = "weekday") ∧
        (info.type = "holiday" ↔ HolidayOn mgrJanBlock ⟨2025, 1, 4⟩) ∧
        (info.type = "weekend" ↔ ¬ HolidayOn mgrJanBlock ⟨2025, 1, 4⟩ ∧
          WeekendOn ⟨2025, 1, 4⟩) ∧
        (info.type = "vacation" ↔ ¬ HolidayOn mgrJanBlock ⟨2025, 1, 4⟩ ∧
          ¬ WeekendOn ⟨2025, 1, 4⟩ ∧ VacationOn mgrJanBlock ⟨2025, 1, 4⟩) ∧
        (info.type = "weekday" ↔ ¬ HolidayOn mgrJanBlock ⟨2025, 1, 4⟩ ∧
          ¬ WeekendOn ⟨2025, 1, 4⟩ ∧ ¬ VacationOn mgrJanBlock ⟨2025, 1, 4⟩) ∧
        (WeekendOn ⟨2025, 1, 4⟩ ∧ VacationOn mgrJanBlock ⟨2025, 1, 4⟩ →
          info.type ≠ "vacation" ∧
            (¬ HolidayOn mgrJanBlock ⟨2025, 1, 4⟩ → info.type = "weekend"))) :=
  ⟨by decide, claim1_classifier_precedence mgrJanBlock 2025 1 4 (by decide)⟩

set_option maxRecDepth 10000 in
/-- C2 counterexample: with the single configured holiday 2025-12-25,
`days_off + days_at_work` is 366 while `workdays + weekends` is 365, so the
claimed identity `daysOff + daysAtWork = workdays + weekends` fails. -/
theorem claim2_identity_counterexample :
    ((calculate_statistics mgrXmas).days_off : Int) +
        (calculate_statistics mgrXmas).days_at_work ≠
      ((calculate_statistics mgrXmas).workdays : Int) +
        ((calculate_statistics mgrXmas).weekends : Int) := by
  decide

/-- C2 amended: for every configuration the statistics satisfy
`daysOff + daysAtWork = workdays + weekends + holidays`. -/
theorem claim2_identity_amended (mgr : CalendarManager) :
    ((calculate_statistics mgr).days_off : Int) +
        (calculate_statistics mgr).days_at_work =
      ((calculate_statistics mgr).workdays : Int) +
        ((calculate_statistics mgr).weekends : Int) +
        ((calculate_statistics mgr).holidays : Int) := by
  simp only [calculate_statistics]
  push_cast
  ring

set_option maxRecDepth 10000 in
/-- C3 counterexample: with two blocks both covering exactly 2025-01-01, the
global `vacation_days` counter is 1, not 2 — the day set is deduplicated. -/
theorem claim3_overlap_counterexample :
    (calculate_statistics mgrOverlap).vacation_days = 1 ∧
      ¬ (calculate_statistics mgrOverlap).vacation_days = 2 := by
  decide

set_option maxRecDepth 10000 in
/-- C3 amended: each of the two overlapping blocks counts the shared day once
in its per-block totals (so twice across `vacation_blocks`), the global
`vacation_days` counter counts it once, and the classifier returns a single
classification for it. -/
theorem claim3_overlap_amended :
    ((calculate_statistics mgrOverlap).vacation_blocks.map
        (fun b => b.total_days)) = [1, 1] ∧
      (calculate_statistics mgrOverlap).vacation_days = 1 ∧
      get_day_info mgrOverlap 2025 1 1 =
        .ok ⟨"vacation", "1", some "a", some 0⟩ := by
  refine ⟨by decide, by decide, by decide⟩

/-- C4: on a block whose well-formed dates satisfy start > end, the range check
inside the validator's `try` block raises the range error, but the enclosing
`except ValueError` handler catches it and re-raises it as the
invalid-date-format error, so `_validate_vacation_config` fails with
InvalidDateFormat, not InvalidRange. -/
theorem claim4_invalid_range_swallowed :
    vacBlockTryBody "2025-05-10" "2025-05-01" = .error .invalidRange ∧
      validate_vacation_config docRangeBad = .error .invalidDateFormat ∧
      validate_vacation_config docRangeBad ≠ .error .invalidRange := by
  refine ⟨by decide, by decide, by decide⟩

/-- C5 counterexample: the parser accepts "2025-1-5", which is not of the
form YYYY-MM-DD, so date parsing does not accept exactly that form. -/
theorem claim5_strict_format_counterexample :
    parseDate "2025-1-5" = some ⟨2025, 1, 5⟩ ∧
      isStrictISO "2025-1-5" = false := by
  refine ⟨by decide, by decide⟩

/-- C5 amended: date parsing accepts exactly the strings consisting of a year
of exactly four Unicode decimal digits, a dash, a one- or two-ASCII-digit
month, a dash and a one- or two-digit day whose units digit may be a Unicode
decimal digit when its tens digit is 1 or 2 (zero padding optional
throughout), such that the values form a constructible date; it fails on
every other string.  In particular "2025-13-40" fails, and holiday
configuration validation fails on it with InvalidDateFormat before any
classifier runs; the Arabic-Indic-year string U+0662 U+0660 U+0662 U+0665 "-1-5" (written with escapes) is accepted as 2025-01-05, exactly as `strptime` accepts it. -/
theorem claim5_acceptance_characterization :
    (∀ s : String, (parseDate s).isSome = true ↔ lenientAccept s.data) ∧
      parseDate "2025-13-40" = none ∧
      validate_holiday_config docBadDate = .error .invalidDateFormat ∧
      parseDate "\u0662\u0660\u0662\u0665-1-5" = some ⟨2025, 1, 5⟩ ∧
      parseDate "2025-01-1\u0665" = some ⟨2025, 1, 15⟩ := by
  refine ⟨parseDate_isSome_iff, by decide, by decide, by decide, by decide⟩

/-- C6: for every year representable as a Python date (and below 9999, past
which the source's day increment would overflow), the aggregator counts every
day from January 1 to December 31 inclusive: 366 in leap years, 365 otherwise. -/
theorem claim6_total_days (mgr : CalendarManager) (h1 : 1 ≤ mgr.year)
    (h2 : mgr.year ≤ 9998) :
    (calculate_statistics mgr).total_days =
      if isLeapYear mgr.year then 366 else 365 := by
  have hstart : ValidPyDate ⟨mgr.year, 1, 1⟩ := by
    show validDate mgr.year 1 1
    exact ⟨h1, by omega, by omega, by omega, by omega, daysInMonth_pos _ _⟩
  have hstop : ValidPyDate ⟨mgr.year, 12, 31⟩ := by
    show validDate mgr.year 12 31
    have hdim : daysInMonth mgr.year 12 = 31 := rfl
    exact ⟨h1, by omega, by omega, by omega, by omega, by omega⟩
  have hlen := daysList_length hstart hstop
  have hstopord := toordinal_dec31 mgr.year
  have hstartord := toordinal_jan1 mgr.year
  simp only [calculate_statistics]
  rw [statsFold_total, hlen, hstartord, hstopord]
  by_cases hl : isLeapYear mgr.year = true <;>
    simp only [hl, if_true, if_false, Bool.false_eq_true] <;> omega

/-- C6 witness: the empty configuration for 2025 (a non-leap year). -/
theorem claim6_total_days_witness :
    (1 ≤ mgrEmpty2025.year ∧ mgrEmpty2025.year ≤ 9998) ∧
      (calculate_statistics mgrEmpty2025).total_days =
        if isLeapYear mgrEmpty2025.year then 366 else 365 :=
  ⟨⟨by decide, by decide⟩,
   claim6_total_days mgrEmpty2025 (by decide) (by decide)⟩

set_option maxRecDepth 10000 in
/-- C7 counterexample: Saturday 2025-01-04 is a configured holiday; the
classifier labels it "holiday" (holiday precedes weekend), not "Weekend" as
the claim asserts. -/
theorem claim7_weekend_holiday_counterexample :
    is_weekend ⟨2025, 1, 4⟩ = true ∧
      (⟨2025, 1, 4⟩ : PyDate) ∈ holidaysOf mgrSatHoliday ∧
      get_day_info mgrSatHoliday 2025 1 4 =
        .ok ⟨"holiday", "4", some "Saturday holiday", none⟩ ∧
      ("holiday" : String) ≠ "weekend" := by
  refine ⟨by decide, by decide, by decide, by decide⟩

set_option maxRecDepth 10000 in
/-- C7 amended: the statistics `holidays` counter counts exactly the days of
the year that appear among the configured (parsed) holidays, independent of
classifier precedence; a configured holiday on Saturday 2025-01-04 increments
`holidays` by exactly one and is also counted by the `weekends` counter, even
though the classifier labels that day Holiday. -/
theorem claim7_holiday_count_amended :
    (∀ mgr : CalendarManager,
      (calculate_statistics mgr).holidays =
        (daysList ⟨mgr.year, 1, 1⟩ ⟨mgr.year, 12, 31⟩).countP
          (fun d => decide (d ∈ holidaysOf mgr))) ∧
      (calculate_statistics mgrSatHoliday).holidays = 1 ∧
      (calculate_statistics mgrSatHoliday).weekends = 104 ∧
      get_day_info mgrSatHoliday 2025 1 4 =
        .ok ⟨"holiday", "4", some "Saturday holiday", none⟩ := by
  refine ⟨?_, by decide, by decide, by decide⟩
  intro mgr
  simp only [calculate_statistics]
  rw [statsFold_holidays]
  simp

/-- C8: the per-block statistics report, for each configured block in order,
`total_days` equal to the number of days in the inclusive interval
[start, end] (the ordinal distance) and `workdays` equal to the number of
those days that are neither a Saturday/Sunday nor a configured holiday. -/
theorem claim8_block_stats (mgr : CalendarManager) :
    (calculate_statistics mgr).vacation_blocks =
      (vacationBlocksOf mgr).map (fun b =>
        ⟨b.id, b.description, fmtDate b.start, fmtDate b.stop,
         toordinal b.stop + 1 - toordinal b.start,
         (daysList b.start b.stop).countP
           (fun d => !is_weekend d && !(decide (d ∈ holidaysOf mgr)))⟩) := by
  simp only [calculate_statistics]
  apply List.map_congr_left
  intro b hb
  obtain ⟨hs, he⟩ := parseVacationBlocksFrom_valid 0 mgr.vacationBlockEntries b hb
  simp only [blockStatsOf, BlockStats.mk.injEq]
  rw [blockFold_fst, blockFold_snd]
  refine ⟨trivial, trivial, trivial, trivial, ?_, by omega⟩
  rw [daysList_length hs he]
  omega

/-- C9: for every configuration and every (year, month), day value 0 — a
calendar-grid padding cell — yields the record with the fifth type "outside"
(distinct from all four category values), empty display, no description and no
vacation-block id, without any date construction (no error even for
unconstructible year/month values). -/
theorem claim9_outside_cell :
    (∀ (mgr : CalendarManager) (y m : Nat),
      get_day_info mgr y m 0 = .ok ⟨"outside", "", none, none⟩) ∧
      ("outside" : String) ≠ "holiday" ∧ ("outside" : String) ≠ "weekend" ∧
      ("outside" : String) ≠ "vacation" ∧ ("outside" : String) ≠ "weekday" := by
  refine ⟨?_, by decide, by decide, by decide, by decide⟩
  intro mgr y m
  rfl

set_option maxRecDepth 10000 in
set_option maxHeartbeats 2000000 in
/-- C10: constructing a CalendarManager never fails on malformed date strings:
holiday parsing is exactly a filterMap that keeps the parsable entries, block
parsing enumerates the configured blocks (ids are positions in the configured
sequence, counted over skipped blocks too) and keeps those whose dates parse;
classification and statistics then run over the remaining entries. -/
theorem claim10_skip_invalid_entries :
    (∀ hs : List HolidayEntry,
        parseHolidays hs = hs.filterMap (fun h => parseDate h.date)) ∧
      (∀ (i : Nat) (es : List VacBlockEntry),
        parseVacationBlocksFrom i es = (es.enumFrom i).filterMap (fun p =>
          match parseDate p.2.start, parseDate p.2.stop with
          | some s, some e => some ⟨s, e, p.2.description, p.1⟩
          | _, _ => none)) ∧
      holidaysOf mgrMixed = [⟨2025, 6, 5⟩] ∧
      vacationBlocksOf mgrMixed =
        [⟨⟨2025, 3, 10⟩, ⟨2025, 3, 12⟩, "good block", 1⟩] ∧
      (calculate_statistics mgrMixed).holidays = 1 ∧
      get_day_info mgrMixed 2025 3 11 =
        .ok ⟨"vacation", "11", some "good block", some 1⟩ := by
  refine ⟨parseHolidays_eq_filterMap,
    fun i es => parseVacationBlocksFrom_eq es i,
    by decide, by decide, by decide, by decide⟩
